import Mathlib

/-!
Shallow embedding of the conversational-memory / knowledge-base core
(`advanced_memory_manager.py`, `advanced_knowledge_base.py`).

Conventions:
- Python floats are modelled as exact rationals (`ℚ`) where the code only
  does field arithmetic, and as reals (`ℝ`) where `numpy` square roots are
  involved (vector norms, cosine similarity).
- Python `datetime` timestamps are modelled as an abstract integer clock
  whose unit is a day (the only arithmetic the code performs on timestamps
  is `now - timedelta(days=30)` and comparisons).
- Python dicts are modelled as association lists preserving insertion
  order (Python 3.7+ semantics): assignment to a present key keeps its
  position, assignment to an absent key appends.
- A Python function that can raise is modelled as `Option`-valued, `none`
  standing for the raised exception; the source mutates `self` only after
  the expressions that can raise, so the state on `none` is unchanged.
- `hash` (salted per-process but fixed within one configuration) and the
  md5-derived document id are taken as parameters of the knowledge-base
  configuration.
- Disk persistence (`_save_memories`, `_load_memories`, pickle files) is
  outside the modelled state; the in-memory collections are authoritative.
-/

/-! ## Python text primitives -/

/-- Whitespace characters recognised by Python `str.split()` /
`str.strip()` for the ASCII fragment the repository manipulates. -/
def pyIsSpace (c : Char) : Bool :=
  c = ' ' || c = '\t' || c = '\n' || c = '\r' || c = '\x0b' || c = '\x0c'

/-- Worker for `pysplit`: walks the characters, accumulating the current
(reversed) token. -/
def pysplitGo : List Char → List Char → List String
  | [], cur => if cur.isEmpty then [] else [String.mk cur.reverse]
  | c :: rest, cur =>
    if pyIsSpace c then
      if cur.isEmpty then pysplitGo rest []
      else String.mk cur.reverse :: pysplitGo rest []
    else pysplitGo rest (c :: cur)

/-- Python `text.split()`: split on runs of whitespace, no empty tokens. -/
def pysplit (s : String) : List String :=
  pysplitGo s.data []

/-- Python `text.lower()` on the ASCII fragment used by the repository. -/
def pylower (s : String) : String :=
  String.mk (s.data.map Char.toLower)

/-- Python `text.strip()` on a character list. -/
def pystripL (l : List Char) : List Char :=
  ((l.dropWhile pyIsSpace).reverse.dropWhile pyIsSpace).reverse

/-- Python `text.strip()`. -/
def pystrip (s : String) : String :=
  String.mk (pystripL s.data)

/-- Python slicing `l[a:b]` (clamping out-of-range bounds). -/
def pyslice (l : List Char) (a b : Nat) : List Char :=
  (l.take b).drop a

/-- Python substring containment `needle in hay`. -/
def pyContains (needle hay : List Char) : Bool :=
  (hay.tails).any (fun t => needle.isPrefixOf t)

/-! ## Association lists (Python dicts, insertion-ordered) -/

/-- Dict lookup `d.get(k)`. -/
def alistLookup {α : Type} (k : String) (l : List (String × α)) : Option α :=
  (l.find? (fun kv => kv.1 == k)).map (fun kv => kv.2)

/-- Dict assignment `d[k] = v`: replace in place if present, else append. -/
def alistSet {α : Type} (k : String) (v : α) : List (String × α) → List (String × α)
  | [] => [(k, v)]
  | kv :: rest => if kv.1 == k then (k, v) :: rest else kv :: alistSet k v rest

/-- Dict deletion `if k in d: del d[k]` (keys are unique in a dict, so
deletion is filtering the binding out). -/
def alistErase {α : Type} (k : String) (l : List (String × α)) : List (String × α) :=
  l.filter (fun kv => kv.1 != k)

/-- Truthiness of an optional string argument (`if user_id:` in Python):
`None` and the empty string are falsy. -/
def pyTruthy : Option String → Bool
  | none => false
  | some s => s != ""

/-! ## Memory manager: data model (`advanced_memory_manager.py`) -/

/-- One conversation turn as stored by `add_session_memory`
(`advanced_memory_manager.py`, lines 82-93).  `promoted_at` is only set on
the long-term copy. -/
structure MemoryEntry where
  sessionId : String
  userId : String
  userMessage : String
  assistantResponse : String
  timestamp : Int
  context : List (String × String)
  memoryType : String
  relevanceScore : ℚ
  keywords : List String
  sentiment : String
  promotedAt : Option Int := none
deriving DecidableEq

/-- Sentiment counters of a user profile. -/
structure SentimentDist where
  positive : Nat
  negative : Nat
  neutral : Nat
deriving DecidableEq

/-- User profile (`_create_default_profile`); `personality_traits` and
`preferences` are created constant and never written by the modelled
operations, so they are kept as constants of the structure. -/
structure UserProfile where
  userId : String
  totalConversations : Nat
  totalMessages : Nat
  healthInterests : List (String × Nat)
  sentimentDistribution : SentimentDist
  conversationStyle : String
  lastInteraction : Int
deriving DecidableEq

/-- One entry of a conversation-flow window (`_update_conversation_context`). -/
structure FlowItem where
  timestamp : Int
  userMessageTrunc : String
  sentiment : String
deriving DecidableEq

/-- Per-session conversation context.  The source also initialises
`user_preferences` (a set) and `assistant_responses` (a list) but never
writes or reads them afterwards, so they are omitted. -/
structure ConvContext where
  currentTopic : String
  conversationFlow : List FlowItem
deriving DecidableEq

/-- The in-memory state of `AdvancedMemoryManager`. -/
structure MMState where
  sessionMemories : List (String × List MemoryEntry)
  longTermMemories : List MemoryEntry
  userProfiles : List (String × UserProfile)
  conversationContexts : List (String × ConvContext)
deriving DecidableEq

/-- A fresh manager before any turn (empty stores, nothing on disk). -/
def emptyMMState : MMState :=
  { sessionMemories := [], longTermMemories := [], userProfiles := [], conversationContexts := [] }

/-- Configuration constant `memory_retention_days = 30`. -/
def memoryRetentionDays : Int := 30

/-- Configuration constant `relevance_threshold = 0.7`. -/
def mmRelevanceThreshold : ℚ := 7/10

/-- Keyword list of `_calculate_relevance_score`. -/
def healthKeywords : List String :=
  ["health", "medical", "doctor", "symptom", "treatment",
   "medicine", "pain", "fever", "cough", "headache"]

/-- Stop-word set of `_extract_keywords`. -/
def stopWords : List String :=
  ["the", "a", "an", "and", "or", "but", "in", "on", "at", "to", "for", "of", "with", "by"]

/-- Positive-word set of `_analyze_sentiment`. -/
def positiveWords : List String :=
  ["good", "great", "excellent", "happy", "better", "improved", "helpful"]

/-- Negative-word set of `_analyze_sentiment`. -/
def negativeWords : List String :=
  ["bad", "terrible", "pain", "hurt", "sick", "worried", "anxious", "depressed"]

/-- Priority keywords of `_should_promote_to_long_term` (line 380). -/
def importantKeywords : List String :=
  ["emergency", "symptom", "treatment", "medication", "diagnosis"]

/-- `_calculate_relevance_score` (lines 211-221).  The source computes
`keyword_count / len(words)`, which raises `ZeroDivisionError` when the
text has no tokens; that exception is modelled as `none`. -/
def calculateRelevanceScore (text : String) : Option ℚ :=
  let words := pysplit (pylower text)
  if words.length = 0 then none
  else
    let keywordCount := (words.filter (fun w => healthKeywords.contains w)).length
    some (min 1 (((keywordCount : ℚ) / (words.length : ℚ)) * 2 + (words.length : ℚ) / 50))

/-- `_extract_keywords` (lines 223-230). -/
def extractKeywords (text : String) : List String :=
  let words := pysplit (pylower text)
  (words.filter (fun w => !stopWords.contains w && 2 < w.length)).take 10

/-- `_analyze_sentiment` (lines 232-246). -/
def analyzeSentiment (text : String) : String :=
  let words := pysplit (pylower text)
  let positiveCount := (words.filter (fun w => positiveWords.contains w)).length
  let negativeCount := (words.filter (fun w => negativeWords.contains w)).length
  if negativeCount < positiveCount then "positive"
  else if positiveCount < negativeCount then "negative"
  else "neutral"

/-- The memory entry built by `add_session_memory` (lines 82-93), given the
already-computed relevance score. -/
def mkMemoryEntry (now : Int) (sessionId userMessage assistantResponse : String)
    (context : List (String × String)) (userId : Option String) (rel : ℚ) : MemoryEntry :=
  { sessionId := sessionId
    userId := if pyTruthy userId then userId.getD "" else "anonymous"
    userMessage := userMessage
    assistantResponse := assistantResponse
    timestamp := now
    context := context
    memoryType := "session"
    relevanceScore := rel
    keywords := extractKeywords userMessage
    sentiment := analyzeSentiment userMessage }

/-- `_update_conversation_context` (lines 248-274). -/
def updateConversationContext (sessionId : String) (e : MemoryEntry) (s : MMState) : MMState :=
  let ctx := (alistLookup sessionId s.conversationContexts).getD
    { currentTopic := "", conversationFlow := [] }
  let ctx1 := if e.keywords.isEmpty then ctx else { ctx with currentTopic := e.keywords.headD "" }
  let flow := ctx1.conversationFlow ++
    [{ timestamp := e.timestamp
       userMessageTrunc := String.mk (e.userMessage.data.take 50) ++ "..."
       sentiment := e.sentiment }]
  let flow2 := if 20 < flow.length then flow.drop (flow.length - 20) else flow
  let contexts := alistSet sessionId { ctx1 with conversationFlow := flow2 } s.conversationContexts
  { s with conversationContexts := contexts }

/-- `_create_default_profile` (lines 304-320), restricted to the fields the
modelled operations read or write. -/
def defaultUserProfile (now : Int) : UserProfile :=
  { userId := "anonymous"
    totalConversations := 0
    totalMessages := 0
    healthInterests := []
    sentimentDistribution := { positive := 0, negative := 0, neutral := 0 }
    conversationStyle := "formal"
    lastInteraction := now }

/-- Increment of `profile['sentiment_distribution'][sentiment]`. -/
def bumpSentiment (d : SentimentDist) (sentiment : String) : SentimentDist :=
  if sentiment = "positive" then { d with positive := d.positive + 1 }
  else if sentiment = "negative" then { d with negative := d.negative + 1 }
  else { d with neutral := d.neutral + 1 }

/-- `_update_user_profile` (lines 276-302). -/
def updateUserProfile (now : Int) (userId : String) (e : MemoryEntry) (s : MMState) : MMState :=
  let p := (alistLookup userId s.userProfiles).getD (defaultUserProfile now)
  let p1 := { p with
    totalConversations := p.totalConversations + 1
    totalMessages := p.totalMessages + 1
    healthInterests := e.keywords.foldl
      (fun hi k => alistSet k ((alistLookup k hi).getD 0 + 1) hi) p.healthInterests
    sentimentDistribution := bumpSentiment p.sentimentDistribution e.sentiment
    lastInteraction := e.timestamp }
  { s with userProfiles := alistSet userId p1 s.userProfiles }

/-- `_should_promote_to_long_term` (lines 373-383). -/
def shouldPromoteToLongTerm (e : MemoryEntry) : Bool :=
  decide ((4 : ℚ)/5 < e.relevanceScore) || e.keywords.any (fun k => importantKeywords.contains k)

/-- `_promote_to_long_term` (lines 385-394): appends a copy tagged
`long_term` with a promotion timestamp. -/
def promoteToLongTerm (now : Int) (e : MemoryEntry) (s : MMState) : MMState :=
  { s with longTermMemories :=
      s.longTermMemories ++ [{ e with memoryType := "long_term", promotedAt := some now }] }

/-- `_cleanup_old_memories` (lines 396-420): keep entries strictly newer
than `now - memory_retention_days`, delete sessions left empty. -/
def cleanupOldMemories (now : Int) (s : MMState) : MMState :=
  let cutoff := now - memoryRetentionDays
  let sess := (s.sessionMemories.map
    (fun kv => (kv.1, kv.2.filter (fun m => decide (cutoff < m.timestamp))))).filter
    (fun kv => !kv.2.isEmpty)
  let longTerm := s.longTermMemories.filter (fun m => decide (cutoff < m.timestamp))
  { s with sessionMemories := sess, longTermMemories := longTerm }

/-- `add_session_memory` (lines 75-114).  `none` models the
`ZeroDivisionError` escaping from `_calculate_relevance_score` before any
state mutation. -/
def addSessionMemory (now : Int) (sessionId userMessage assistantResponse : String)
    (context : List (String × String)) (userId : Option String) (s : MMState) :
    Option MMState :=
  match calculateRelevanceScore userMessage with
  | none => none
  | some rel =>
    let e := mkMemoryEntry now sessionId userMessage assistantResponse context userId rel
    let sess := alistSet sessionId
      (((alistLookup sessionId s.sessionMemories).getD []) ++ [e]) s.sessionMemories
    let s1 := { s with sessionMemories := sess }
    let s2 := updateConversationContext sessionId e s1
    let s3 := if pyTruthy userId then updateUserProfile now (userId.getD "") e s2 else s2
    let s4 := if shouldPromoteToLongTerm e then promoteToLongTerm now e s3 else s3
    some (cleanupOldMemories now s4)

/-- `get_relevant_long_term_memories` (lines 133-160).  Result entries are
paired with their `similarity_score`; `none` models the
`ZeroDivisionError` raised on a zero-token query. -/
def getRelevantLongTermMemories (s : MMState) (query : String) (userId : Option String)
    (limit : Nat) : Option (List (MemoryEntry × ℚ)) :=
  match calculateRelevanceScore query with
  | none => none
  | some queryRelevance =>
    let queryKeywords := extractKeywords query
    let candidates := s.longTermMemories.filter
      (fun m => !(pyTruthy userId && m.userId != userId.getD ""))
    let scored := candidates.map (fun m =>
      let keywordOverlap : ℚ :=
        ((queryKeywords.dedup.filter (fun k => m.keywords.contains k)).length : ℚ)
      let relevanceSimilarity : ℚ := 1 - |queryRelevance - m.relevanceScore|
      (m, keywordOverlap * (3/5) + relevanceSimilarity * (2/5)))
    let kept := scored.filter (fun p => decide (mmRelevanceThreshold ≤ p.2))
    some ((kept.mergeSort (fun a b => decide (b.2 ≤ a.2))).take limit)

/-- `clear_user_data` (lines 476-502). -/
def clearUserData (userId : String) (s : MMState) : MMState :=
  let sess := (s.sessionMemories.map
    (fun kv => (kv.1, kv.2.filter (fun m => m.userId != userId)))).filter
    (fun kv => !kv.2.isEmpty)
  { s with
    userProfiles := alistErase userId s.userProfiles
    longTermMemories := s.longTermMemories.filter (fun m => m.userId != userId)
    sessionMemories := sess }

/-! ## Knowledge base: data model (`advanced_knowledge_base.py`) -/

/-- A processed chunk.  Optional fields mirror dict keys that only some
code paths write.  `category` mirrors `chunk.get('category')`: no chunk
constructor in the source ever writes a `'category'` key (only documents
carry one), so it stays `none` for every chunk the code builds. -/
structure Chunk where
  content : String
  title : String
  chunkType : String
  sentenceCount : Option Nat := none
  paragraphIndex : Option Nat := none
  startPos : Option Nat := none
  endPos : Option Nat := none
  id : String := ""
  documentId : String := ""
  chunkIndex : Nat := 0
  category : Option String := none
deriving DecidableEq

/-- A raw document as stored by `add_document` (lines 142-152). -/
structure Document where
  id : String
  title : String
  content : String
  category : String
  source : String
  tags : List String
  addedAt : Int
  wordCount : Nat
  charCount : Nat
deriving DecidableEq

/-- Per-document metadata entry (lines 174-179). -/
structure DocMeta where
  numChunks : Nat
  categories : List String
  tags : List String
  processedAt : Int
deriving DecidableEq

/-- Deterministic ingredients of one process configuration: the runtime
string hash used by `_simple_embedding` (fixed within a process), the
md5-derived document id of `_generate_document_id`, and the embedding
dimension (384 in the fallback configuration). -/
structure KBConfig where
  hashFn : String → Nat
  docIdFn : String → String → String
  dim : Nat

/-- In-memory state of `AdvancedKnowledgeBase`; embeddings are keyed by
chunk id. -/
structure KBState where
  documents : List Document
  chunks : List Chunk
  embeddings : List (String × (Nat → ℝ))
  metadata : List (String × DocMeta)

/-- An empty knowledge base (nothing loaded from disk). -/
def emptyKBState : KBState :=
  { documents := [], chunks := [], embeddings := [], metadata := [] }

/-- Configuration constant `chunk_size = 512`. -/
def chunkSize : Nat := 512

/-- Configuration constant `chunk_overlap = 50`. -/
def chunkOverlap : Nat := 50

/-- Configuration constant `max_chunks_per_document = 10`. -/
def maxChunksPerDocument : Nat := 10

/-- Configuration constant `relevance_threshold = 0.6`. -/
def kbRelevanceThreshold : ℚ := 3/5

/-- `similarity_weights['semantic'] = 0.7`. -/
def semanticWeight : ℚ := 7/10

/-- `similarity_weights['keyword'] = 0.2`. -/
def keywordWeight : ℚ := 1/5

/-- `similarity_weights['category'] = 0.1`. -/
def categoryWeight : ℚ := 1/10

/-! ## Chunkers -/

/-- Terminal punctuation, `'.!?'` / regex class `[.!?]+`. -/
def puncts : List Char := ['.', '!', '?']

/-- Drop a leading run of terminal punctuation. -/
def dropPuncts : List Char → List Char
  | [] => []
  | c :: rest => if puncts.contains c then dropPuncts rest else c :: rest

theorem dropPuncts_length_le (l : List Char) : (dropPuncts l).length ≤ l.length := by
  induction l with
  | nil => simp [dropPuncts]
  | cons c rest ih =>
    simp only [dropPuncts]
    split
    · exact ih.trans (Nat.le_succ _)
    · exact Nat.le_refl _

/-- Prepend a character to the first segment of a split. -/
def consHead (c : Char) : List (List Char) → List (List Char)
  | [] => [[c]]
  | s :: ss => (c :: s) :: ss

/-- Python `re.split(r'[.!?]+', text)`: split on maximal runs of terminal
punctuation. -/
def splitPunctRuns : List Char → List (List Char)
  | [] => [[]]
  | c :: rest =>
    if puncts.contains c then [] :: splitPunctRuns (dropPuncts rest)
    else consHead c (splitPunctRuns rest)
termination_by l => l.length
decreasing_by
  · exact Nat.lt_succ_of_le (dropPuncts_length_le rest)
  · exact Nat.lt_succ_self _

/-- Sentence list of a paragraph: split on punctuation runs, strip, drop
empties (`advanced_knowledge_base.py`, lines 220-221 and 322-323). -/
def sentencesOf (para : List Char) : List (List Char) :=
  ((splitPunctRuns para).map pystripL).filter (fun s => !s.isEmpty)

/-- Python `content.split('\n\n')` (non-overlapping, left to right). -/
def splitParagraphs : List Char → List (List Char)
  | [] => [[]]
  | '\n' :: '\n' :: rest => [] :: splitParagraphs rest
  | c :: rest => consHead c (splitParagraphs rest)

/-- Sentence-accumulation loop of `_chunk_medical_content` (lines
223-256): state is (remaining sentences, current_chunk, sentence_count). -/
def accumSentencesMedical (title : String) :
    List (List Char) → List Char → Nat → List Chunk
  | [], current, count =>
    if current.isEmpty then []
    else [{ content := String.mk (pystripL current), title := title,
            chunkType := "medical_paragraph", sentenceCount := some count }]
  | s :: rest, current, count =>
    if chunkSize < current.length + s.length then
      if current.isEmpty then
        { content := String.mk s, title := title, chunkType := "medical_sentence",
          sentenceCount := some 1 } :: accumSentencesMedical title rest current count
      else
        { content := String.mk (pystripL current), title := title,
          chunkType := "medical_paragraph", sentenceCount := some count }
          :: accumSentencesMedical title rest s 1
    else accumSentencesMedical title rest (current ++ ' ' :: s) (count + 1)

/-- `_chunk_medical_content` (lines 208-258). -/
def chunkMedicalContent (content title : String) : List Chunk :=
  ((splitParagraphs content.data).map (fun para =>
    if (pystripL para).isEmpty then []
    else accumSentencesMedical title (sentencesOf para) [] 0)).flatten

/-- Sentence-accumulation loop of `_split_long_paragraph` (lines 325-358);
identical to the medical one up to the chunk-type tags. -/
def accumSentencesLong (title : String) :
    List (List Char) → List Char → Nat → List Chunk
  | [], current, count =>
    if current.isEmpty then []
    else [{ content := String.mk (pystripL current), title := title,
            chunkType := "split_paragraph", sentenceCount := some count }]
  | s :: rest, current, count =>
    if chunkSize < current.length + s.length then
      if current.isEmpty then
        { content := String.mk s, title := title, chunkType := "long_sentence",
          sentenceCount := some 1 } :: accumSentencesLong title rest current count
      else
        { content := String.mk (pystripL current), title := title,
          chunkType := "split_paragraph", sentenceCount := some count }
          :: accumSentencesLong title rest s 1
    else accumSentencesLong title rest (current ++ ' ' :: s) (count + 1)

/-- `_split_long_paragraph` (lines 317-360). -/
def splitLongParagraph (para : List Char) (title : String) : List Chunk :=
  accumSentencesLong title (sentencesOf para) [] 0

/-- `_chunk_general_content` (lines 260-282); `paragraph_index` is the
enumeration index over all paragraphs, blanks included. -/
def chunkGeneralContent (content title : String) : List Chunk :=
  ((splitParagraphs content.data).enum.map (fun p =>
    if (pystripL p.2).isEmpty then []
    else if chunkSize < p.2.length then splitLongParagraph p.2 title
    else [{ content := String.mk (pystripL p.2), title := title,
            chunkType := "general_paragraph", paragraphIndex := some p.1 }])).flatten

/-- Backward scan of `_chunk_fixed_size` (lines 293-298): successively
check positions `low + k`, `low + k - 1`, ..., `low + 1` and return the
first (largest) holding terminal punctuation. -/
def findPunctAux (content : List Char) (low : Nat) : Nat → Option Nat
  | 0 => none
  | k + 1 =>
    if puncts.contains (content.getD (low + k + 1) ' ') then some (low + k + 1)
    else findPunctAux content low k

/-- Loop body of `_chunk_fixed_size` (lines 284-315), with explicit fuel;
`none` means the fuel ran out before the loop exited (the termination
theorem shows `content.length + 1` fuel always suffices under the default
`chunk_size`/`chunk_overlap`/100-character-scan configuration). -/
def chunkFixedSizeGo (content : List Char) (title : String) :
    Nat → Nat → Option (List Chunk)
  | 0, _ => none
  | fuel + 1, start =>
    if start < content.length then
      let end0 := start + chunkSize
      let endPos :=
        if end0 < content.length then
          match findPunctAux content (max start (end0 - 100)) (end0 - max start (end0 - 100)) with
          | some i => i + 1
          | none => end0
        else end0
      let piece := pystripL (pyslice content start endPos)
      let emitted : List Chunk :=
        if piece.isEmpty then []
        else [{ content := String.mk piece, title := title, chunkType := "fixed_size",
                startPos := some start, endPos := some endPos }]
      let newStart := endPos - chunkOverlap
      if content.length ≤ newStart then some emitted
      else
        match chunkFixedSizeGo content title fuel newStart with
        | none => none
        | some rest => some (emitted ++ rest)
    else some []

/-- `_chunk_fixed_size` (lines 284-315). -/
def chunkFixedSize (content title : String) : List Chunk :=
  (chunkFixedSizeGo content.data title (content.data.length + 1) 0).getD []

/-- `_chunk_document` (lines 187-206): category-dispatched strategy, then
head-truncation to `max_chunks_per_document`. -/
def chunkDocument (doc : Document) : List Chunk :=
  let cs :=
    if ["medical_condition", "treatment", "symptom"].contains doc.category then
      chunkMedicalContent doc.content doc.title
    else if ["general", "wellness", "prevention"].contains doc.category then
      chunkGeneralContent doc.content doc.title
    else chunkFixedSize doc.content doc.title
  cs.take maxChunksPerDocument

/-! ## Embedding provider and relevance scorer -/

open Classical in
/-- `_simple_embedding` (lines 373-396): the value at index `i` of the
length-`dim` vector is the summed frequency of the distinct long words
hashing to `i`; the vector is then L2-normalised when its norm is
positive.  Deterministic given the per-process `hashFn`. -/
noncomputable def simpleEmbedding (hashFn : String → Nat) (dim : Nat) (text : String) :
    Nat → ℝ :=
  let words := (pysplit (pylower text)).filter (fun w => 2 < w.length)
  let raw : Nat → ℝ := fun i =>
    (words.dedup.map (fun w => if hashFn w % dim = i then (words.count w : ℝ) else 0)).sum
  let norm := Real.sqrt (∑ i ∈ Finset.range dim, raw i ^ 2)
  if 0 < norm then fun i => raw i / norm else raw

open Classical in
/-- `_cosine_similarity` (lines 470-485); the `try/except` never fires on
numeric lists, and a zero norm on either side yields 0. -/
noncomputable def cosineSimilarity (dim : Nat) (v1 v2 : Nat → ℝ) : ℝ :=
  let dotProd := ∑ i ∈ Finset.range dim, v1 i * v2 i
  let norm1 := Real.sqrt (∑ i ∈ Finset.range dim, v1 i ^ 2)
  let norm2 := Real.sqrt (∑ i ∈ Finset.range dim, v2 i ^ 2)
  if norm1 = 0 ∨ norm2 = 0 then 0 else dotProd / (norm1 * norm2)

/-- `_keyword_similarity` (lines 487-503): Jaccard index of the two
stop-word-free token sets. -/
def keywordSimilarity (query content : String) : ℚ :=
  let queryWords := (pysplit (pylower query)).toFinset \ stopWords.toFinset
  let contentWords := (pysplit (pylower content)).toFinset \ stopWords.toFinset
  if queryWords = ∅ ∨ contentWords = ∅ then 0
  else
    let inter := queryWords ∩ contentWords
    let uni := queryWords ∪ contentWords
    if uni = ∅ then 0 else (inter.card : ℚ) / (uni.card : ℚ)

/-- Category term table of `_category_similarity` (lines 512-517). -/
def categoryTerms : List (String × List String) :=
  [("medical_condition", ["condition", "disease", "illness", "symptom"]),
   ("treatment", ["treatment", "therapy", "medication", "cure"]),
   ("prevention", ["prevention", "prevent", "avoid", "protection"]),
   ("wellness", ["wellness", "health", "fitness", "lifestyle"])]

/-- `_category_similarity` (lines 505-524).  The chunk title is lowercased
by the source but never used.  Note `chunk.get('category', '')` is always
`''` for chunks built by this code base, so this returns 0 on them. -/
def categorySimilarity (query : String) (chunk : Chunk) : ℚ :=
  let queryLower := pylower query
  let chunkCategory := pylower (chunk.category.getD "")
  match alistLookup chunkCategory categoryTerms with
  | some terms =>
    let matchCount := (terms.filter (fun t => pyContains t.data queryLower.data)).length
    min 1 ((matchCount : ℚ) / (terms.length : ℚ))
  | none => 0

/-- Combined similarity of `search_knowledge` (lines 426-430): weighted
sum of the three components. -/
noncomputable def combinedSimilarity (dim : Nat) (queryEmb chunkEmb : Nat → ℝ)
    (query : String) (chunk : Chunk) : ℝ :=
  cosineSimilarity dim queryEmb chunkEmb * (semanticWeight : ℝ) +
    (keywordSimilarity query chunk.content : ℝ) * (keywordWeight : ℝ) +
    (categorySimilarity query chunk : ℝ) * (categoryWeight : ℝ)

/-- Category-filter penalty of `search_knowledge` (lines 432-434): halve
the score when a truthy filter is supplied and `chunk.get('category')`
differs from it. -/
noncomputable def applyCategoryFilter (categoryFilter : Option String) (chunk : Chunk) (score : ℝ) : ℝ :=
  if pyTruthy categoryFilter && chunk.category != categoryFilter then score * (1/2)
  else score

/-- Scored intermediate record of `search_knowledge` (lines 436-442). -/
structure ScoredChunk where
  chunk : Chunk
  similarityScore : ℝ
  semanticSimilarity : ℝ
  keywordSim : ℚ
  categorySim : ℚ

/-- Formatted result of `search_knowledge` (lines 452-466). -/
structure SearchResult where
  content : String
  title : String
  category : String
  chunkType : String
  relevanceScore : ℝ
  semanticScore : ℝ
  keywordScore : ℚ
  categoryScore : ℚ
  documentId : String
  chunkId : String

open Classical in
/-- `search_knowledge` (lines 398-468) on the fallback embedding path:
embed the query once, score every chunk that has a stored embedding
(missing embeddings are skipped by `continue`), sort descending (Python's
sort is stable; `reverse=True` keeps the original order of ties), keep
scores at or above the threshold, truncate, format. -/
noncomputable def searchKnowledge (cfg : KBConfig) (st : KBState) (query : String)
    (limit : Nat) (categoryFilter : Option String) : List SearchResult :=
  let queryEmbedding := simpleEmbedding cfg.hashFn cfg.dim query
  let similarities := st.chunks.filterMap (fun ch =>
    match alistLookup ch.id st.embeddings with
    | none => none
    | some chunkEmbedding =>
      some ({ chunk := ch
              similarityScore := applyCategoryFilter categoryFilter ch
                (combinedSimilarity cfg.dim queryEmbedding chunkEmbedding query ch)
              semanticSimilarity := cosineSimilarity cfg.dim queryEmbedding chunkEmbedding
              keywordSim := keywordSimilarity query ch.content
              categorySim := categorySimilarity query ch } : ScoredChunk))
  let sorted := similarities.mergeSort (fun a b => decide (b.similarityScore ≤ a.similarityScore))
  let relevant := sorted.filter (fun r => decide ((kbRelevanceThreshold : ℝ) ≤ r.similarityScore))
  (relevant.take limit).map (fun r =>
    { content := r.chunk.content
      title := r.chunk.title
      category := r.chunk.category.getD "general"
      chunkType := r.chunk.chunkType
      relevanceScore := r.similarityScore
      semanticScore := r.semanticSimilarity
      keywordScore := r.keywordSim
      categoryScore := r.categorySim
      documentId := r.chunk.documentId
      chunkId := r.chunk.id })

/-- `add_document` (lines 136-185) on the fallback embedding path: store
the document, chunk it, assign chunk ids, store chunks and their
embeddings (computed from the chunk contents, which id assignment does not
change), record metadata. -/
noncomputable def addDocument (cfg : KBConfig) (now : Int)
    (title content category source : String) (tags : List String) (st : KBState) : KBState :=
  let documentId := cfg.docIdFn title content
  let doc : Document :=
    { id := documentId, title := title, content := content, category := category,
      source := source, tags := tags, addedAt := now,
      wordCount := (pysplit content).length, charCount := content.length }
  let cs := chunkDocument doc
  let indexed := cs.enum.map (fun p =>
    { p.2 with id := documentId ++ "_chunk_" ++ toString p.1,
               documentId := documentId, chunkIndex := p.1 })
  let newEmbeddings := indexed.foldl
    (fun acc c => alistSet c.id (simpleEmbedding cfg.hashFn cfg.dim c.content) acc)
    st.embeddings
  let meta : DocMeta :=
    { numChunks := cs.length, categories := [category], tags := tags, processedAt := now }
  { documents := st.documents ++ [doc]
    chunks := st.chunks ++ indexed
    embeddings := newEmbeddings
    metadata := alistSet documentId meta st.metadata }

/-! ## Association-list lemmas -/

theorem alistLookup_cons {α : Type} (k : String) (x : String × α) (xs : List (String × α)) :
    alistLookup k (x :: xs) = if x.1 == k then some x.2 else alistLookup k xs := by
  cases hx : x.1 == k <;> simp [alistLookup, List.find?, hx]

theorem alistLookup_erase_self {α : Type} (k : String) (l : List (String × α)) :
    alistLookup k (alistErase k l) = none := by
  induction l with
  | nil => rfl
  | cons kv rest ih =>
    by_cases h : kv.1 = k
    · simpa [alistErase, List.filter_cons, h] using ih
    · simpa [alistErase, List.filter_cons, h, alistLookup_cons] using ih

theorem alistLookup_erase_ne {α : Type} (k v : String) (l : List (String × α)) (hvk : v ≠ k) :
    alistLookup v (alistErase k l) = alistLookup v l := by
  induction l with
  | nil => rfl
  | cons kv rest ih =>
    by_cases h : kv.1 = k
    · have hkv : ¬k = v := fun hh => hvk hh.symm
      have hv : (kv.1 == v) = false := by
        rw [h]
        simpa using hkv
      simp only [alistErase, List.filter_cons] at ih ⊢
      simp [h, alistLookup_cons, hv, ih, hkv]
    · simp only [alistErase, List.filter_cons] at ih ⊢
      simp [h, alistLookup_cons, ih]

theorem mem_alistSet {α : Type} (k : String) (v : α) (l : List (String × α))
    (p : String × α) (hp : p ∈ alistSet k v l) : p = (k, v) ∨ p ∈ l := by
  induction l with
  | nil => simpa [alistSet] using hp
  | cons kv rest ih =>
    by_cases h : kv.1 = k
    · have hb : (kv.1 == k) = true := by simp [h]
      simp only [alistSet, hb, if_true] at hp
      rcases List.mem_cons.mp hp with h1 | h1
      · exact Or.inl h1
      · exact Or.inr (List.mem_cons_of_mem _ h1)
    · have hb : (kv.1 == k) = false := by simp [h]
      simp only [alistSet, hb, if_false] at hp
      rcases List.mem_cons.mp hp with h1 | h1
      · exact Or.inr (h1 ▸ List.mem_cons_self kv rest)
      · rcases ih h1 with h2 | h2
        · exact Or.inl h2
        · exact Or.inr (List.mem_cons_of_mem _ h2)

theorem alistLookup_mem {α : Type} (k : String) (l : List (String × α)) (v : α)
    (h : alistLookup k l = some v) : ∃ kv ∈ l, kv.2 = v := by
  induction l with
  | nil => simp [alistLookup] at h
  | cons x xs ih =>
    rw [alistLookup_cons] at h
    by_cases hx : (x.1 == k) = true
    · refine ⟨x, List.mem_cons_self x xs, ?_⟩
      simp only [hx, if_true] at h
      exact (Option.some.inj h)
    · simp only [hx, if_false] at h
      obtain ⟨kv, hkv, hv⟩ := ih (by simpa [hx] using h)
      exact ⟨kv, List.mem_cons_of_mem _ hkv, hv⟩

/-! ## Claim C2 -/

/-- C2: the spec says malformed (empty / whitespace-only, zero-token)
input degrades to fewer or no results and never raises, but
`_calculate_relevance_score` divides by `len(words)`, so both
`add_session_memory` with an empty user message and
`get_relevant_long_term_memories` with an empty query raise
`ZeroDivisionError` (modelled as `none`) instead of returning normally. -/
theorem mm_empty_input_raises :
    calculateRelevanceScore "" = none ∧
    calculateRelevanceScore "   " = none ∧
    addSessionMemory 0 "s1" "" "ok" [] (some "alice") emptyMMState = none ∧
    getRelevantLongTermMemories emptyMMState "" (some "alice") 5 = none := by
  refine ⟨by decide!, by decide!, by decide!, by decide!⟩

/-! ## Claim C5 -/

/-- C5 counterexample: with the supplied user id `""` (a falsy but
supplied value), the `if user_id and ...` guard is skipped, and a query
returns a memory owned by `"alice"`, whose user id differs from the
supplied one; so it is not true that for every supplied user id every
returned entry carries that user id. -/
theorem mm_long_term_privacy_leak :
    ((addSessionMemory 0 "s1" "I need information about my diagnosis" "ok" [] (some "alice")
        emptyMMState).bind
      (fun st => getRelevantLongTermMemories st "I need information about my diagnosis"
        (some "") 5)).map (fun l => l.map (fun p => p.1.userId)) = some ["alice"] ∧
    ("alice" : String) ≠ "" := by
  refine ⟨by decide!, by decide!⟩

/-- C5 (amended to truthy user ids): for every nonempty supplied user id,
every entry returned by `get_relevant_long_term_memories` carries exactly
that user id, and the result is unchanged when the long-term store is
first restricted to that user's entries — other users' entries do not
influence the outcome. -/
theorem mm_long_term_privacy_filter (s : MMState) (q u : String) (limit : Nat)
    (res : List (MemoryEntry × ℚ)) (hu : u ≠ "")
    (hres : getRelevantLongTermMemories s q (some u) limit = some res) :
    (∀ p ∈ res, p.1.userId = u) ∧
    getRelevantLongTermMemories s q (some u) limit =
      getRelevantLongTermMemories
        { s with longTermMemories := s.longTermMemories.filter (fun m => m.userId == u) }
        q (some u) limit := by
  have htr : pyTruthy (some u) = true := by simp [pyTruthy, hu]
  constructor
  · intro p hp
    unfold getRelevantLongTermMemories at hres
    cases hq : calculateRelevanceScore q with
    | none => rw [hq] at hres; exact absurd hres (by simp)
    | some qrel =>
      rw [hq] at hres
      simp only [Option.some.injEq] at hres
      subst hres
      have h1 := List.mem_of_mem_take hp
      rw [List.mem_mergeSort] at h1
      have h2 := (List.mem_filter.mp h1).1
      obtain ⟨m, hm, hpm⟩ := List.mem_map.mp h2
      have h3 := (List.mem_filter.mp hm).2
      rw [htr] at h3
      simp only [Option.getD_some, Bool.true_and, Bool.not_eq_eq_eq_not, Bool.not_true,
        bne_eq_false_iff_eq] at h3
      rw [← hpm]
      exact h3
  · unfold getRelevantLongTermMemories
    cases hq : calculateRelevanceScore q with
    | none => rfl
    | some qrel =>
      have hcands :
          s.longTermMemories.filter
            (fun m => !(pyTruthy (some u) && m.userId != (some u).getD "")) =
          (s.longTermMemories.filter (fun m => m.userId == u)).filter
            (fun m => !(pyTruthy (some u) && m.userId != (some u).getD "")) := by
        rw [List.filter_filter]
        refine (List.filter_congr ?_)
        intro m _
        rw [htr]
        cases hbe : m.userId == u <;> simp [hbe, bne]
      simp only [hcands]

/-- A promoted long-term entry owned by `"alice"` (the promotion of the
turn "I need information about my diagnosis" at time 0). -/
def privacyEntry : MemoryEntry :=
  { sessionId := "s1", userId := "alice",
    userMessage := "I need information about my diagnosis", assistantResponse := "ok",
    timestamp := 0, context := [], memoryType := "long_term", relevanceScore := 3/25,
    keywords := ["need", "information", "about", "diagnosis"], sentiment := "neutral",
    promotedAt := some 0 }

/-- A store holding only alice's long-term entry. -/
def privacyState : MMState :=
  { sessionMemories := [], longTermMemories := [privacyEntry], userProfiles := [],
    conversationContexts := [] }

/-- C5 witness: the amended privacy theorem applied at a concrete store,
query and nonempty user id. -/
theorem mm_long_term_privacy_filter_witness :
    (∀ p ∈ [(privacyEntry, (14 : ℚ)/5)], p.1.userId = "alice") ∧
    getRelevantLongTermMemories privacyState "I need information about my diagnosis"
        (some "alice") 5 =
      getRelevantLongTermMemories
        { privacyState with longTermMemories :=
            privacyState.longTermMemories.filter (fun m => m.userId == "alice") }
        "I need information about my diagnosis" (some "alice") 5 :=
  mm_long_term_privacy_filter privacyState "I need information about my diagnosis" "alice" 5
    [(privacyEntry, 14/5)] (by decide!) (by decide!)

/-! ## Claim C7 -/

/-- C7: `clear_user_data u` removes u's profile, all of u's long-term
entries and all of u's session entries (deleting sessions left empty),
while other users' profiles, long-term entries and session entries are
untouched. -/
theorem mm_clear_user_data_frame (u : String) (s : MMState) :
    alistLookup u (clearUserData u s).userProfiles = none ∧
    (∀ v, v ≠ u → alistLookup v (clearUserData u s).userProfiles = alistLookup v s.userProfiles) ∧
    (∀ m ∈ (clearUserData u s).longTermMemories, m.userId ≠ u) ∧
    (∀ m ∈ s.longTermMemories, m.userId ≠ u → m ∈ (clearUserData u s).longTermMemories) ∧
    (∀ kv ∈ (clearUserData u s).sessionMemories, kv.2 ≠ [] ∧ ∀ m ∈ kv.2, m.userId ≠ u) ∧
    (∀ sid ms, (sid, ms) ∈ s.sessionMemories → ∀ m ∈ ms, m.userId ≠ u →
      ∃ ms2, (sid, ms2) ∈ (clearUserData u s).sessionMemories ∧ m ∈ ms2) := by
  refine ⟨?_, ?_, ?_, ?_, ?_, ?_⟩
  · exact alistLookup_erase_self u s.userProfiles
  · intro v hv
    exact alistLookup_erase_ne u v s.userProfiles hv
  · intro m hm
    have := (List.mem_filter.mp hm).2
    simpa using this
  · intro m hm hne
    exact List.mem_filter.mpr ⟨hm, by simpa using hne⟩
  · intro kv hkv
    have h1 := (List.mem_filter.mp hkv).2
    have h2 := (List.mem_filter.mp hkv).1
    obtain ⟨kv0, _, hkv0⟩ := List.mem_map.mp h2
    constructor
    · simpa [List.isEmpty_iff] using h1
    · intro m hm
      rw [← hkv0] at hm
      have := (List.mem_filter.mp hm).2
      simpa using this
  · intro sid ms hms m hm hne
    refine ⟨ms.filter (fun m => m.userId != u), ?_, ?_⟩
    · refine List.mem_filter.mpr ⟨?_, ?_⟩
      · exact List.mem_map.mpr ⟨(sid, ms), hms, rfl⟩
      · have hmem : m ∈ ms.filter (fun m => m.userId != u) :=
          List.mem_filter.mpr ⟨hm, by simpa using hne⟩
        simpa [List.isEmpty_iff] using List.ne_nil_of_mem hmem
    · exact List.mem_filter.mpr ⟨hm, by simpa using hne⟩

/-- A two-user store exercising every clause of the clear-user-data frame
theorem. -/
def clearDemoState : MMState :=
  { sessionMemories :=
      [("s1", [{ sessionId := "s1", userId := "alice", userMessage := "hi there",
                 assistantResponse := "ok", timestamp := 0, context := [],
                 memoryType := "session", relevanceScore := 1/25,
                 keywords := ["there"], sentiment := "neutral" }]),
       ("s2", [{ sessionId := "s2", userId := "bob", userMessage := "hello you",
                 assistantResponse := "ok", timestamp := 0, context := [],
                 memoryType := "session", relevanceScore := 1/25,
                 keywords := ["hello", "you"], sentiment := "neutral" }])]
    longTermMemories :=
      [{ sessionId := "s2", userId := "bob", userMessage := "my diagnosis",
         assistantResponse := "ok", timestamp := 0, context := [],
         memoryType := "long_term", relevanceScore := 2/25,
         keywords := ["diagnosis"], sentiment := "neutral", promotedAt := some 0 }]
    userProfiles :=
      [("alice", { defaultUserProfile 0 with userId := "anonymous" }),
       ("bob", defaultUserProfile 0)]
    conversationContexts := [] }

/-- C7 witness: the frame theorem applied to a concrete two-user store. -/
theorem mm_clear_user_data_frame_witness :
    alistLookup "alice" (clearUserData "alice" clearDemoState).userProfiles = none ∧
    (∀ v, v ≠ "alice" →
      alistLookup v (clearUserData "alice" clearDemoState).userProfiles =
        alistLookup v clearDemoState.userProfiles) ∧
    (∀ m ∈ (clearUserData "alice" clearDemoState).longTermMemories, m.userId ≠ "alice") ∧
    (∀ m ∈ clearDemoState.longTermMemories, m.userId ≠ "alice" →
      m ∈ (clearUserData "alice" clearDemoState).longTermMemories) ∧
    (∀ kv ∈ (clearUserData "alice" clearDemoState).sessionMemories,
      kv.2 ≠ [] ∧ ∀ m ∈ kv.2, m.userId ≠ "alice") ∧
    (∀ sid ms, (sid, ms) ∈ clearDemoState.sessionMemories → ∀ m ∈ ms, m.userId ≠ "alice" →
      ∃ ms2, (sid, ms2) ∈ (clearUserData "alice" clearDemoState).sessionMemories ∧ m ∈ ms2) :=
  mm_clear_user_data_frame "alice" clearDemoState

/-! ## Projection lemmas for the memory-manager operations -/

theorem cleanup_longTerm (now : Int) (s : MMState) :
    (cleanupOldMemories now s).longTermMemories =
      s.longTermMemories.filter (fun m => decide (now - memoryRetentionDays < m.timestamp)) :=
  rfl

theorem cleanup_userProfiles (now : Int) (s : MMState) :
    (cleanupOldMemories now s).userProfiles = s.userProfiles := rfl

theorem promote_longTerm (now : Int) (e : MemoryEntry) (s : MMState) :
    (promoteToLongTerm now e s).longTermMemories =
      s.longTermMemories ++ [{ e with memoryType := "long_term", promotedAt := some now }] :=
  rfl

theorem promote_userProfiles (now : Int) (e : MemoryEntry) (s : MMState) :
    (promoteToLongTerm now e s).userProfiles = s.userProfiles := rfl

theorem updateContext_longTerm (sid : String) (e : MemoryEntry) (s : MMState) :
    (updateConversationContext sid e s).longTermMemories = s.longTermMemories := rfl

theorem updateContext_userProfiles (sid : String) (e : MemoryEntry) (s : MMState) :
    (updateConversationContext sid e s).userProfiles = s.userProfiles := rfl

theorem updateProfile_longTerm (now : Int) (u : String) (e : MemoryEntry) (s : MMState) :
    (updateUserProfile now u e s).longTermMemories = s.longTermMemories := rfl

/-- The profile/context steps of `add_session_memory` leave the long-term
store unchanged. -/
theorem stepProfileContext_longTerm (now : Int) (uid : Option String) (sid : String)
    (e : MemoryEntry) (s0 : MMState) :
    (if pyTruthy uid then
      updateUserProfile now (uid.getD "") e (updateConversationContext sid e s0)
     else updateConversationContext sid e s0).longTermMemories = s0.longTermMemories := by
  cases h : pyTruthy uid <;> simp [h, updateProfile_longTerm, updateContext_longTerm]

/-! ## Claim C1 -/

/-- C1: after a successful `add_session_memory`, the long-term store is
the retention-filtered old store plus a promoted copy of the new turn
exactly when the turn's relevance score exceeds 0.8 or its extracted
keywords hit the priority set; moreover "I have a mild headache" scores
1/2 and hits no priority keyword (no copy), while "I need information
about my diagnosis" contains the priority keyword "diagnosis" (a copy
regardless of its score 3/25 < 0.8). -/
theorem mm_promotion_gate (now : Int) (sid msg resp : String) (ctx : List (String × String))
    (uid : Option String) (s s' : MMState) (rel : ℚ)
    (hr : calculateRelevanceScore msg = some rel)
    (ha : addSessionMemory now sid msg resp ctx uid s = some s') :
    (s'.longTermMemories =
      s.longTermMemories.filter (fun m => decide (now - memoryRetentionDays < m.timestamp)) ++
      (if (4 : ℚ)/5 < rel ∨ ∃ k ∈ extractKeywords msg, k ∈ importantKeywords then
        [{ mkMemoryEntry now sid msg resp ctx uid rel with
           memoryType := "long_term", promotedAt := some now }]
      else [])) ∧
    calculateRelevanceScore "I have a mild headache" = some (1/2) ∧
    ¬((4 : ℚ)/5 < 1/2 ∨
      ∃ k ∈ extractKeywords "I have a mild headache", k ∈ importantKeywords) ∧
    calculateRelevanceScore "I need information about my diagnosis" = some (3/25) ∧
    (∃ k ∈ extractKeywords "I need information about my diagnosis",
      k ∈ importantKeywords) := by
  refine ⟨?_, by decide!, by decide!, by decide!, by decide!⟩
  unfold addSessionMemory at ha
  rw [hr] at ha
  simp only [Option.some.injEq] at ha
  subst ha
  have hbridge : shouldPromoteToLongTerm (mkMemoryEntry now sid msg resp ctx uid rel) = true ↔
      ((4 : ℚ)/5 < rel ∨ ∃ k ∈ extractKeywords msg, k ∈ importantKeywords) := by
    simp [shouldPromoteToLongTerm, mkMemoryEntry, List.any_eq_true]
  have hnew : now - memoryRetentionDays < now := by
    simp only [memoryRetentionDays]
    omega
  by_cases hc : (4 : ℚ)/5 < rel ∨ ∃ k ∈ extractKeywords msg, k ∈ importantKeywords
  · rw [if_pos hc, hbridge.mpr hc]
    simp only [if_true, cleanup_longTerm, promote_longTerm, List.filter_append,
      stepProfileContext_longTerm]
    simp [mkMemoryEntry, hnew]
  · rw [if_neg hc]
    have hb : shouldPromoteToLongTerm (mkMemoryEntry now sid msg resp ctx uid rel) = false := by
      rw [← Bool.not_eq_true]
      exact fun h => hc (hbridge.mp h)
    rw [hb]
    simp only [Bool.false_eq_true, if_false, cleanup_longTerm, stepProfileContext_longTerm,
      List.append_nil]

/-- C1 witness: the promotion characterisation applied to a concrete call
("hello" has relevance 1/50 and no priority keyword, so no long-term copy
is appended). -/
theorem mm_promotion_gate_witness :
    (((addSessionMemory 0 "s1" "hello" "ok" [] none emptyMMState).getD
        emptyMMState).longTermMemories =
      emptyMMState.longTermMemories.filter
        (fun m => decide ((0 : Int) - memoryRetentionDays < m.timestamp)) ++
      (if (4 : ℚ)/5 < 1/50 ∨ ∃ k ∈ extractKeywords "hello", k ∈ importantKeywords then
        [{ mkMemoryEntry 0 "s1" "hello" "ok" [] none (1/50) with
           memoryType := "long_term", promotedAt := some 0 }]
      else [])) ∧
    calculateRelevanceScore "I have a mild headache" = some (1/2) ∧
    ¬((4 : ℚ)/5 < 1/2 ∨
      ∃ k ∈ extractKeywords "I have a mild headache", k ∈ importantKeywords) ∧
    calculateRelevanceScore "I need information about my diagnosis" = some (3/25) ∧
    (∃ k ∈ extractKeywords "I need information about my diagnosis",
      k ∈ importantKeywords) :=
  mm_promotion_gate 0 "s1" "hello" "ok" [] none emptyMMState
    ((addSessionMemory 0 "s1" "hello" "ok" [] none emptyMMState).getD emptyMMState) (1/50)
    (by decide!) (by decide!)

/-! ## Claim C6 -/

/-- Every state produced by `_cleanup_old_memories` holds only entries
strictly newer than the retention cutoff, and no empty session. -/
theorem cleanup_retention (now : Int) (s0 : MMState) :
    (∀ kv ∈ (cleanupOldMemories now s0).sessionMemories,
      kv.2 ≠ [] ∧ ∀ m ∈ kv.2, now - memoryRetentionDays < m.timestamp) ∧
    (∀ m ∈ (cleanupOldMemories now s0).longTermMemories,
      now - memoryRetentionDays < m.timestamp) := by
  constructor
  · intro kv hkv
    simp only [cleanupOldMemories] at hkv
    have h1 := (List.mem_filter.mp hkv).2
    obtain ⟨kv0, _, hkv0⟩ := List.mem_map.mp (List.mem_filter.mp hkv).1
    constructor
    · simpa [List.isEmpty_iff] using h1
    · intro m hm
      rw [← hkv0] at hm
      have := (List.mem_filter.mp hm).2
      simpa using this
  · intro m hm
    simp only [cleanupOldMemories] at hm
    have := (List.mem_filter.mp hm).2
    simpa using this

/-- C6: after every successful `add_session_memory` call, every entry
still present in the session store or in the long-term store is strictly
newer than `now - memory_retention_days`, and no session is left empty
(sessions whose entries were all purged are removed). -/
theorem mm_retention_after_add (now : Int) (sid msg resp : String)
    (ctx : List (String × String)) (uid : Option String) (s s' : MMState)
    (ha : addSessionMemory now sid msg resp ctx uid s = some s') :
    (∀ kv ∈ s'.sessionMemories,
      kv.2 ≠ [] ∧ ∀ m ∈ kv.2, now - memoryRetentionDays < m.timestamp) ∧
    (∀ m ∈ s'.longTermMemories, now - memoryRetentionDays < m.timestamp) := by
  unfold addSessionMemory at ha
  cases hcal : calculateRelevanceScore msg with
  | none => rw [hcal] at ha; exact absurd ha (by simp)
  | some rel =>
    rw [hcal] at ha
    simp only [Option.some.injEq] at ha
    subst ha
    exact cleanup_retention now _

/-- C6 witness: the retention theorem applied to a concrete call. -/
theorem mm_retention_after_add_witness :
    (∀ kv ∈ ((addSessionMemory 40 "s9" "hello" "ok" [] (some "alice")
        emptyMMState).getD emptyMMState).sessionMemories,
      kv.2 ≠ [] ∧ ∀ m ∈ kv.2, (40 : Int) - memoryRetentionDays < m.timestamp) ∧
    (∀ m ∈ ((addSessionMemory 40 "s9" "hello" "ok" [] (some "alice")
        emptyMMState).getD emptyMMState).longTermMemories,
      (40 : Int) - memoryRetentionDays < m.timestamp) :=
  mm_retention_after_add 40 "s9" "hello" "ok" [] (some "alice") emptyMMState
    ((addSessionMemory 40 "s9" "hello" "ok" [] (some "alice") emptyMMState).getD emptyMMState)
    (by decide!)

/-! ## Claim C10 -/

/-- `_update_user_profile` bumps `total_conversations` and
`total_messages` together, so their agreement is preserved. -/
theorem updateProfile_counters (now : Int) (u : String) (e : MemoryEntry) (s : MMState)
    (hs : ∀ kv ∈ s.userProfiles, kv.2.totalConversations = kv.2.totalMessages) :
    ∀ kv ∈ (updateUserProfile now u e s).userProfiles,
      kv.2.totalConversations = kv.2.totalMessages := by
  intro kv hkv
  simp only [updateUserProfile] at hkv
  rcases mem_alistSet _ _ _ _ hkv with h | h
  · have hp : ((alistLookup u s.userProfiles).getD (defaultUserProfile now)).totalConversations =
        ((alistLookup u s.userProfiles).getD (defaultUserProfile now)).totalMessages := by
      cases hlk : alistLookup u s.userProfiles with
      | none => rfl
      | some q =>
        obtain ⟨kv0, hkv0, hq⟩ := alistLookup_mem _ _ _ hlk
        simpa [hq] using hs kv0 hkv0
    rw [h]
    simpa using hp
  · exact hs kv h

/-- Counter agreement is preserved by every successful
`add_session_memory` call. -/
theorem addSessionMemory_counters (now : Int) (sid msg resp : String)
    (ctx : List (String × String)) (uid : Option String) (s s' : MMState)
    (hs : ∀ kv ∈ s.userProfiles, kv.2.totalConversations = kv.2.totalMessages)
    (ha : addSessionMemory now sid msg resp ctx uid s = some s') :
    ∀ kv ∈ s'.userProfiles, kv.2.totalConversations = kv.2.totalMessages := by
  unfold addSessionMemory at ha
  cases hcal : calculateRelevanceScore msg with
  | none => rw [hcal] at ha; exact absurd ha (by simp)
  | some rel =>
    rw [hcal] at ha
    simp only [Option.some.injEq] at ha
    subst ha
    intro kv hkv
    rw [cleanup_userProfiles] at hkv
    have h4 : ∀ (b : Bool) (s3 : MMState),
        (if b = true then promoteToLongTerm now (mkMemoryEntry now sid msg resp ctx uid rel) s3
         else s3).userProfiles = s3.userProfiles := by
      intro b s3
      cases b <;> simp [promote_userProfiles]
    rw [h4] at hkv
    cases ht : pyTruthy uid
    · rw [ht] at hkv
      simp only [Bool.false_eq_true, if_false, updateContext_userProfiles] at hkv
      exact hs kv hkv
    · rw [ht] at hkv
      simp only [if_true] at hkv
      refine updateProfile_counters now _ _ _ ?_ kv hkv
      intro kv0 h0
      rw [updateContext_userProfiles] at h0
      exact hs kv0 h0

/-- Arguments of one `add_session_memory` call. -/
structure TurnArgs where
  now : Int
  sessionId : String
  userMessage : String
  assistantResponse : String
  context : List (String × String)
  userId : Option String

/-- One call on a live manager object: on the `ZeroDivisionError` path the
state is unchanged (the exception is raised before any mutation). -/
def addTurn (a : TurnArgs) (s : MMState) : MMState :=
  (addSessionMemory a.now a.sessionId a.userMessage a.assistantResponse a.context a.userId
    s).getD s

/-- A whole sequence of `add_session_memory` calls. -/
def runTurns (turns : List TurnArgs) (s : MMState) : MMState :=
  turns.foldl (fun acc a => addTurn a acc) s

theorem addTurn_counters (a : TurnArgs) (s : MMState)
    (hs : ∀ kv ∈ s.userProfiles, kv.2.totalConversations = kv.2.totalMessages) :
    ∀ kv ∈ (addTurn a s).userProfiles, kv.2.totalConversations = kv.2.totalMessages := by
  cases h : addSessionMemory a.now a.sessionId a.userMessage a.assistantResponse a.context
      a.userId s with
  | none => simpa [addTurn, h] using hs
  | some s2 =>
    simpa [addTurn, h] using
      addSessionMemory_counters a.now a.sessionId a.userMessage a.assistantResponse a.context
        a.userId s s2 hs h

/-- C10: `total_conversations` and `total_messages` start at 0 in the
default profile and are bumped together on every recorded turn, so after
any sequence of `add_session_memory` calls the two counters agree in
every stored profile. -/
theorem mm_profile_counters_agree :
    (∀ now : Int, (defaultUserProfile now).totalConversations = 0 ∧
      (defaultUserProfile now).totalMessages = 0) ∧
    ∀ (turns : List TurnArgs) (s : MMState),
      (∀ kv ∈ s.userProfiles, kv.2.totalConversations = kv.2.totalMessages) →
      ∀ kv ∈ (runTurns turns s).userProfiles,
        kv.2.totalConversations = kv.2.totalMessages := by
  refine ⟨fun now => ⟨rfl, rfl⟩, ?_⟩
  intro turns
  induction turns with
  | nil => intro s hs; simpa [runTurns] using hs
  | cons a rest ih =>
    intro s hs
    have h1 := addTurn_counters a s hs
    simpa [runTurns, List.foldl_cons] using ih (addTurn a s) h1

/-- C10 witness: a concrete two-turn run for one user starting from the
empty store keeps the counters equal. -/
theorem mm_profile_counters_agree_witness :
    ∀ kv ∈ (runTurns
      [{ now := 0, sessionId := "s1", userMessage := "I need information about my diagnosis",
         assistantResponse := "ok", context := [], userId := some "alice" },
       { now := 1, sessionId := "s1", userMessage := "thanks for the helpful answer",
         assistantResponse := "ok", context := [], userId := some "alice" }]
      emptyMMState).userProfiles, kv.2.totalConversations = kv.2.totalMessages :=
  mm_profile_counters_agree.2
    [{ now := 0, sessionId := "s1", userMessage := "I need information about my diagnosis",
       assistantResponse := "ok", context := [], userId := some "alice" },
     { now := 1, sessionId := "s1", userMessage := "thanks for the helpful answer",
       assistantResponse := "ok", context := [], userId := some "alice" }]
    emptyMMState (by decide!)

/-! ## Claim C9 -/

/-- A successful backward punctuation scan returns a position strictly
above its lower bound (and within the scanned window). -/
theorem findPunctAux_bound (content : List Char) (low : Nat) :
    ∀ k i, findPunctAux content low k = some i → low < i ∧ i ≤ low + k := by
  intro k
  induction k with
  | zero => intro i h; simp [findPunctAux] at h
  | succ k ih =>
    intro i h
    simp only [findPunctAux] at h
    split at h
    · have hi := Option.some.inj h
      omega
    · have := ih i h
      omega

/-- Under the default configuration (`chunk_size` 512, `chunk_overlap` 50,
100-character backward scan) the window start grows by at least 364 per
iteration, so `content.length + 1` iterations always suffice. -/
theorem chunkFixedSizeGo_isSome (content : List Char) (title : String) :
    ∀ fuel start, content.length - start < fuel →
      (chunkFixedSizeGo content title fuel start).isSome := by
  intro fuel
  induction fuel with
  | zero => intro start h; omega
  | succ fuel ih =>
    intro start hfuel
    simp only [chunkFixedSizeGo]
    by_cases hs : start < content.length
    · rw [if_pos hs]
      have hnewStart : ∀ endPos : Nat, start + 414 ≤ endPos →
          (if content.length ≤ endPos - chunkOverlap then
            some (if (pystripL (pyslice content start endPos)).isEmpty then ([] : List Chunk)
              else [{ content := String.mk (pystripL (pyslice content start endPos)),
                      title := title, chunkType := "fixed_size",
                      startPos := some start, endPos := some endPos }])
          else
            match chunkFixedSizeGo content title fuel (endPos - chunkOverlap) with
            | none => none
            | some rest =>
              some ((if (pystripL (pyslice content start endPos)).isEmpty then ([] : List Chunk)
                else [{ content := String.mk (pystripL (pyslice content start endPos)),
                        title := title, chunkType := "fixed_size",
                        startPos := some start, endPos := some endPos }]) ++ rest)).isSome := by
        intro endPos hend
        split
        · simp
        · rename_i hlt
          have hrec : content.length - (endPos - chunkOverlap) < fuel := by
            simp only [chunkOverlap] at *
            omega
          have hsome := ih (endPos - chunkOverlap) hrec
          cases hgo : chunkFixedSizeGo content title fuel (endPos - chunkOverlap) with
          | none => rw [hgo] at hsome; simp at hsome
          | some rest => simp
      by_cases he : start + chunkSize < content.length
      · rw [if_pos he]
        cases hfp : findPunctAux content (max start (start + chunkSize - 100))
            (start + chunkSize - max start (start + chunkSize - 100)) with
        | none =>
          simp only [hfp]
          exact hnewStart (start + chunkSize) (by simp only [chunkSize]; omega)
        | some i =>
          simp only [hfp]
          have hb := findPunctAux_bound content (max start (start + chunkSize - 100)) _ i hfp
          refine hnewStart (i + 1) ?_
          simp only [chunkSize] at hb ⊢
          omega
      · rw [if_neg he]
        exact hnewStart (start + chunkSize) (by simp only [chunkSize]; omega)
    · rw [if_neg hs]
      simp

/-- C9: the fixed-window chunker is total: for every content the loop
exits within `content.length + 1` iterations (the window start strictly
increases each round under the default configuration), and empty content
yields zero chunks. -/
theorem kb_fixed_chunker_total :
    (∀ (content title : String), ∃ cs,
      chunkFixedSizeGo content.data title (content.data.length + 1) 0 = some cs) ∧
    (∀ title, chunkFixedSize "" title = []) := by
  constructor
  · intro content title
    exact Option.isSome_iff_exists.mp
      (chunkFixedSizeGo_isSome content.data title (content.data.length + 1) 0 (by omega))
  · intro title
    rfl

/-! ## Claim C3 -/

theorem accumSentencesMedical_category (title : String) :
    ∀ (ss : List (List Char)) (cur : List Char) (n : Nat) (ch : Chunk),
      ch ∈ accumSentencesMedical title ss cur n → ch.category = none := by
  intro ss
  induction ss with
  | nil =>
    intro cur n ch h
    simp only [accumSentencesMedical] at h
    split at h
    · simp at h
    · rw [List.mem_singleton] at h
      rw [h]
  | cons s rest ih =>
    intro cur n ch h
    simp only [accumSentencesMedical] at h
    split at h
    · split at h
      · rcases List.mem_cons.mp h with h1 | h1
        · rw [h1]
        · exact ih cur n ch h1
      · rcases List.mem_cons.mp h with h1 | h1
        · rw [h1]
        · exact ih s 1 ch h1
    · exact ih (cur ++ ' ' :: s) (n + 1) ch h

theorem accumSentencesLong_category (title : String) :
    ∀ (ss : List (List Char)) (cur : List Char) (n : Nat) (ch : Chunk),
      ch ∈ accumSentencesLong title ss cur n → ch.category = none := by
  intro ss
  induction ss with
  | nil =>
    intro cur n ch h
    simp only [accumSentencesLong] at h
    split at h
    · simp at h
    · rw [List.mem_singleton] at h
      rw [h]
  | cons s rest ih =>
    intro cur n ch h
    simp only [accumSentencesLong] at h
    split at h
    · split at h
      · rcases List.mem_cons.mp h with h1 | h1
        · rw [h1]
        · exact ih cur n ch h1
      · rcases List.mem_cons.mp h with h1 | h1
        · rw [h1]
        · exact ih s 1 ch h1
    · exact ih (cur ++ ' ' :: s) (n + 1) ch h

theorem chunkMedicalContent_category (content title : String) (ch : Chunk)
    (h : ch ∈ chunkMedicalContent content title) : ch.category = none := by
  obtain ⟨l, hl, hch⟩ := List.exists_of_mem_flatten h
  obtain ⟨para, _, hpara⟩ := List.mem_map.mp hl
  rw [← hpara] at hch
  split at hch
  · simp at hch
  · exact accumSentencesMedical_category title _ [] 0 ch hch

theorem chunkGeneralContent_category (content title : String) (ch : Chunk)
    (h : ch ∈ chunkGeneralContent content title) : ch.category = none := by
  obtain ⟨l, hl, hch⟩ := List.exists_of_mem_flatten h
  obtain ⟨p, _, hp⟩ := List.mem_map.mp hl
  rw [← hp] at hch
  split at hch
  · simp at hch
  · split at hch
    · exact accumSentencesLong_category title _ [] 0 ch hch
    · rw [List.mem_singleton] at hch
      rw [hch]

theorem chunkFixedSizeGo_category (content : List Char) (title : String) :
    ∀ (fuel start : Nat) (cs : List Chunk), chunkFixedSizeGo content title fuel start = some cs →
      ∀ ch ∈ cs, ch.category = none := by
  intro fuel
  induction fuel with
  | zero => intro start cs h; simp [chunkFixedSizeGo] at h
  | succ fuel ih =>
    intro start cs h ch hch
    simp only [chunkFixedSizeGo] at h
    by_cases hs : start < content.length
    case neg =>
      rw [if_neg hs] at h
      obtain rfl := Option.some.inj h
      simp at hch
    case pos =>
      rw [if_pos hs] at h
      have tail : ∀ endPos : Nat,
          (if content.length ≤ endPos - chunkOverlap then
            some (if (pystripL (pyslice content start endPos)).isEmpty then ([] : List Chunk)
              else [{ content := String.mk (pystripL (pyslice content start endPos)),
                      title := title, chunkType := "fixed_size",
                      startPos := some start, endPos := some endPos }])
          else
            match chunkFixedSizeGo content title fuel (endPos - chunkOverlap) with
            | none => none
            | some rest =>
              some ((if (pystripL (pyslice content start endPos)).isEmpty then ([] : List Chunk)
                else [{ content := String.mk (pystripL (pyslice content start endPos)),
                        title := title, chunkType := "fixed_size",
                        startPos := some start, endPos := some endPos }]) ++ rest)) = some cs →
          ch.category = none := by
        intro endPos hEq
        split at hEq
        · obtain rfl := Option.some.inj hEq
          split at hch
          · simp at hch
          · rw [List.mem_singleton] at hch
            rw [hch]
        · split at hEq
          · simp at hEq
          · rename_i rest hrest
            obtain rfl := Option.some.inj hEq
            rcases List.mem_append.mp hch with h1 | h1
            · split at h1
              · simp at h1
              · rw [List.mem_singleton] at h1
                rw [h1]
            · exact ih _ rest hrest ch h1
      by_cases he : start + chunkSize < content.length
      · rw [if_pos he] at h
        cases hfp : findPunctAux content (max start (start + chunkSize - 100))
            (start + chunkSize - max start (start + chunkSize - 100)) with
        | none =>
          simp only [hfp] at h
          exact tail (start + chunkSize) h
        | some i =>
          simp only [hfp] at h
          exact tail (i + 1) h
      · rw [if_neg he] at h
        exact tail (start + chunkSize) h

theorem chunkFixedSize_category (content title : String) (ch : Chunk)
    (h : ch ∈ chunkFixedSize content title) : ch.category = none := by
  unfold chunkFixedSize at h
  cases hgo : chunkFixedSizeGo content.data title (content.data.length + 1) 0 with
  | none => rw [hgo] at h; simp at h
  | some cs =>
    rw [hgo] at h
    exact chunkFixedSizeGo_category content.data title _ 0 cs hgo ch h

theorem chunkDocument_category (doc : Document) (ch : Chunk)
    (h : ch ∈ chunkDocument doc) : ch.category = none := by
  unfold chunkDocument at h
  have h2 := List.mem_of_mem_take h
  split at h2
  · exact chunkMedicalContent_category doc.content doc.title ch h2
  · split at h2
    · exact chunkGeneralContent_category doc.content doc.title ch h2
    · exact chunkFixedSize_category doc.content doc.title ch h2

/-- C3: the source intends a soft penalty only for chunks whose category
mismatches the supplied filter ("Penalize non-matching categories"), but
`add_document` never writes a `'category'` key into any chunk, so
`chunk.get('category')` is `None` for every ingested chunk and
`search_knowledge` halves the combined score of every chunk whenever a
truthy filter is supplied — including chunks of a document whose category
equals the filter, which the claim says are not penalized. -/
theorem kb_category_filter_penalizes_matching (cfg : KBConfig) (now : Int)
    (title content category source : String) (tags : List String) (st : KBState)
    (ch : Chunk) (score : ℝ)
    (hcat : category ≠ "")
    (hch : ch ∈ (addDocument cfg now title content category source tags st).chunks)
    (hnew : ch ∉ st.chunks) :
    ch.category = none ∧
    applyCategoryFilter (some category) ch score = score * (1/2) := by
  have hcn : ch.category = none := by
    simp only [addDocument] at hch
    rcases List.mem_append.mp hch with h1 | h1
    · exact absurd h1 hnew
    · obtain ⟨p, hp, hpe⟩ := List.mem_map.mp h1
      have hp2 : p.2 ∈ chunkDocument
          { id := cfg.docIdFn title content, title := title, content := content,
            category := category, source := source, tags := tags, addedAt := now,
            wordCount := (pysplit content).length, charCount := content.length } := by
        have := List.mem_enum_iff_getElem?.mp hp
        exact List.getElem?_mem this
      rw [← hpe]
      exact chunkDocument_category _ p.2 hp2
  refine ⟨hcn, ?_⟩
  have hcond : (pyTruthy (some category) && (ch.category != some category)) = true := by
    rw [hcn]
    simp [pyTruthy, hcat]
  simp only [applyCategoryFilter, hcond, if_true]

/-- A fixed test configuration: constant hash, constant document id,
fallback dimension 384. -/
def kbDemoConfig : KBConfig :=
  { hashFn := fun _ => 0, docIdFn := fun _ _ => "doc1", dim := 384 }

/-- C3 witness: ingesting a short document under category `"custom"` and
filtering by that same category still halves the chunk's score. -/
theorem kb_category_filter_penalizes_matching_witness :
    ({ content := "Take the medication daily.", title := "T", chunkType := "fixed_size",
       startPos := some 0, endPos := some 512, id := "doc1_chunk_0",
       documentId := "doc1", chunkIndex := 0 } : Chunk).category = none ∧
    applyCategoryFilter (some "custom")
      { content := "Take the medication daily.", title := "T", chunkType := "fixed_size",
        startPos := some 0, endPos := some 512, id := "doc1_chunk_0",
        documentId := "doc1", chunkIndex := 0 } 1 = 1 * (1/2) :=
  kb_category_filter_penalizes_matching kbDemoConfig 0 "T" "Take the medication daily."
    "custom" "manual" [] emptyKBState
    { content := "Take the medication daily.", title := "T", chunkType := "fixed_size",
      startPos := some 0, endPos := some 512, id := "doc1_chunk_0",
      documentId := "doc1", chunkIndex := 0 } 1
    (by decide!) (by decide!) (by decide!)

/-! ## Claim C4 -/

/-- The fallback embedding has pointwise non-negative entries: raw entries
are sums of term frequencies, and L2 normalisation divides by a positive
norm. -/
theorem simpleEmbedding_nonneg (hashFn : String → Nat) (dim : Nat) (text : String) :
    ∀ i, 0 ≤ simpleEmbedding hashFn dim text i := by
  intro i
  unfold simpleEmbedding
  have hraw : ∀ j, (0 : ℝ) ≤
      (((pysplit (pylower text)).filter (fun w => 2 < w.length)).dedup.map
        (fun w => if hashFn w % dim = j then
          (((pysplit (pylower text)).filter (fun w => 2 < w.length)).count w : ℝ)
          else 0)).sum := by
    intro j
    apply List.sum_nonneg
    intro x hx
    obtain ⟨y, _, rfl⟩ := List.mem_map.mp hx
    split
    · positivity
    · exact le_refl 0
  split
  · exact div_nonneg (hraw i) (Real.sqrt_nonneg _)
  · exact hraw i

/-- Cosine similarity of entrywise non-negative vectors lies in [0,1]
(Cauchy-Schwarz for the upper bound, zero-norm guard otherwise). -/
theorem cosineSimilarity_bounds (dim : Nat) (v1 v2 : Nat → ℝ)
    (h1 : ∀ i, 0 ≤ v1 i) (h2 : ∀ i, 0 ≤ v2 i) :
    0 ≤ cosineSimilarity dim v1 v2 ∧ cosineSimilarity dim v1 v2 ≤ 1 := by
  simp only [cosineSimilarity]
  have hD0 : (0 : ℝ) ≤ ∑ i ∈ Finset.range dim, v1 i * v2 i :=
    Finset.sum_nonneg fun i _ => mul_nonneg (h1 i) (h2 i)
  have hCS : ∑ i ∈ Finset.range dim, v1 i * v2 i ≤
      Real.sqrt (∑ i ∈ Finset.range dim, v1 i ^ 2) *
        Real.sqrt (∑ i ∈ Finset.range dim, v2 i ^ 2) :=
    Real.sum_mul_le_sqrt_mul_sqrt _ _ _
  split
  · exact ⟨le_refl 0, zero_le_one⟩
  · rename_i hnz
    push_neg at hnz
    have hp1 : 0 < Real.sqrt (∑ i ∈ Finset.range dim, v1 i ^ 2) :=
      lt_of_le_of_ne (Real.sqrt_nonneg _) (Ne.symm hnz.1)
    have hp2 : 0 < Real.sqrt (∑ i ∈ Finset.range dim, v2 i ^ 2) :=
      lt_of_le_of_ne (Real.sqrt_nonneg _) (Ne.symm hnz.2)
    constructor
    · exact div_nonneg hD0 (mul_nonneg hp1.le hp2.le)
    · rw [div_le_one (mul_pos hp1 hp2)]
      exact hCS

/-- The Jaccard keyword similarity lies in [0,1]. -/
theorem keywordSimilarity_bounds (q c : String) :
    0 ≤ keywordSimilarity q c ∧ keywordSimilarity q c ≤ 1 := by
  simp only [keywordSimilarity]
  split
  · norm_num
  · split
    · norm_num
    · rename_i hne hu
      have hupos : (0 : ℚ) < (((pysplit (pylower q)).toFinset \ stopWords.toFinset) ∪
          ((pysplit (pylower c)).toFinset \ stopWords.toFinset)).card := by
        exact_mod_cast Finset.card_pos.mpr (Finset.nonempty_iff_ne_empty.mpr hu)
      constructor
      · positivity
      · rw [div_le_one hupos]
        exact_mod_cast Finset.card_le_card
          (le_trans Finset.inter_subset_left Finset.subset_union_left)

/-- The capped category-term fraction lies in [0,1]. -/
theorem categorySimilarity_bounds (q : String) (ch : Chunk) :
    0 ≤ categorySimilarity q ch ∧ categorySimilarity q ch ≤ 1 := by
  simp only [categorySimilarity]
  split
  · constructor
    · apply le_min
      · norm_num
      · positivity
    · exact min_le_left _ _
  · norm_num

/-- C4: under the deterministic fallback embedding and the default
weights (semantic 0.7, keyword 0.2, category 0.1), each score component
lies in [0,1] and so does the weighted combined score used by
`search_knowledge`, before and after the optional category-filter
penalty. -/
theorem kb_combined_score_bounds (hashFn : String → Nat) (dim : Nat) (q t : String)
    (ch : Chunk) (filt : Option String) :
    (0 ≤ cosineSimilarity dim (simpleEmbedding hashFn dim q) (simpleEmbedding hashFn dim t) ∧
      cosineSimilarity dim (simpleEmbedding hashFn dim q) (simpleEmbedding hashFn dim t) ≤ 1) ∧
    (0 ≤ keywordSimilarity q ch.content ∧ keywordSimilarity q ch.content ≤ 1) ∧
    (0 ≤ categorySimilarity q ch ∧ categorySimilarity q ch ≤ 1) ∧
    (0 ≤ combinedSimilarity dim (simpleEmbedding hashFn dim q) (simpleEmbedding hashFn dim t)
        q ch ∧
      combinedSimilarity dim (simpleEmbedding hashFn dim q) (simpleEmbedding hashFn dim t)
        q ch ≤ 1) ∧
    (0 ≤ applyCategoryFilter filt ch
        (combinedSimilarity dim (simpleEmbedding hashFn dim q) (simpleEmbedding hashFn dim t)
          q ch) ∧
      applyCategoryFilter filt ch
        (combinedSimilarity dim (simpleEmbedding hashFn dim q) (simpleEmbedding hashFn dim t)
          q ch) ≤ 1) := by
  obtain ⟨hc0, hc1⟩ := cosineSimilarity_bounds dim (simpleEmbedding hashFn dim q)
    (simpleEmbedding hashFn dim t) (simpleEmbedding_nonneg hashFn dim q)
    (simpleEmbedding_nonneg hashFn dim t)
  obtain ⟨hk0, hk1⟩ := keywordSimilarity_bounds q ch.content
  obtain ⟨hg0, hg1⟩ := categorySimilarity_bounds q ch
  have hk0r : (0 : ℝ) ≤ (keywordSimilarity q ch.content : ℝ) := by exact_mod_cast hk0
  have hk1r : ((keywordSimilarity q ch.content : ℝ)) ≤ 1 := by exact_mod_cast hk1
  have hg0r : (0 : ℝ) ≤ (categorySimilarity q ch : ℝ) := by exact_mod_cast hg0
  have hg1r : ((categorySimilarity q ch : ℝ)) ≤ 1 := by exact_mod_cast hg1
  have hw : ((semanticWeight : ℝ) = 7/10 ∧ (keywordWeight : ℝ) = 1/5 ∧
      (categoryWeight : ℝ) = 1/10) := by
    norm_num [semanticWeight, keywordWeight, categoryWeight]
  have hcomb0 : 0 ≤ combinedSimilarity dim (simpleEmbedding hashFn dim q)
      (simpleEmbedding hashFn dim t) q ch := by
    unfold combinedSimilarity
    rw [hw.1, hw.2.1, hw.2.2]
    nlinarith
  have hcomb1 : combinedSimilarity dim (simpleEmbedding hashFn dim q)
      (simpleEmbedding hashFn dim t) q ch ≤ 1 := by
    unfold combinedSimilarity
    rw [hw.1, hw.2.1, hw.2.2]
    nlinarith
  refine ⟨⟨hc0, hc1⟩, ⟨hk0, hk1⟩, ⟨hg0, hg1⟩, ⟨hcomb0, hcomb1⟩, ?_⟩
  simp only [applyCategoryFilter]
  split
  · constructor
    · nlinarith
    · nlinarith
  · exact ⟨hcomb0, hcomb1⟩

/-! ## Claim C8 -/

/-- C8: under a fixed configuration (the per-process token hash and the
dimension), the fallback embedding is a pure function of the text, and
`search_knowledge` reads only the chunk list and the embedding table, so
two calls with the same query against an unmutated index (equal chunks
and embeddings) return identical ordered result lists. -/
theorem kb_search_deterministic (cfg : KBConfig) :
    (∀ t1 t2 : String, t1 = t2 →
      simpleEmbedding cfg.hashFn cfg.dim t1 = simpleEmbedding cfg.hashFn cfg.dim t2) ∧
    (∀ (s1 s2 : KBState) (q1 q2 : String) (limit : Nat) (filt : Option String),
      q1 = q2 → s1.chunks = s2.chunks → s1.embeddings = s2.embeddings →
      searchKnowledge cfg s1 q1 limit filt = searchKnowledge cfg s2 q2 limit filt) := by
  constructor
  · intro t1 t2 ht
    rw [ht]
  · intro s1 s2 q1 q2 limit filt hq hchunks hembs
    subst hq
    simp only [searchKnowledge, hchunks, hembs]

/-- A one-chunk index used to instantiate the determinism theorem. -/
def kbDemoState : KBState :=
  { documents := []
    chunks := [{ content := "Take the medication daily.", title := "T",
                 chunkType := "fixed_size", startPos := some 0, endPos := some 512,
                 id := "doc1_chunk_0", documentId := "doc1", chunkIndex := 0 }]
    embeddings := [("doc1_chunk_0", fun _ => 0)]
    metadata := [] }

/-- C8 witness: the determinism theorem applied to one concrete
configuration, text, query and index. -/
theorem kb_search_deterministic_witness :
    simpleEmbedding kbDemoConfig.hashFn kbDemoConfig.dim "take the medication" =
      simpleEmbedding kbDemoConfig.hashFn kbDemoConfig.dim "take the medication" ∧
    searchKnowledge kbDemoConfig kbDemoState "medication" 5 none =
      searchKnowledge kbDemoConfig kbDemoState "medication" 5 none :=
  ⟨(kb_search_deterministic kbDemoConfig).1 "take the medication" "take the medication" rfl,
   (kb_search_deterministic kbDemoConfig).2 kbDemoState kbDemoState "medication" "medication"
     5 none rfl rfl rfl⟩
